import Mathlib

/-!
Verification of the BLE data-merging scripts.

Two pipeline variants are embedded from the source:
* `transform_and_flag_data` — the row-preserving flag-append variant
  (`Merging_BLEdata.py`).
* `transform_and_pivot_data` / `convert_rssi_to_binary` — the grouping
  pivot variant (`scripts/Merging_BLEdata.py`).

Timestamps are embedded structurally: a raw timestamp text is either a
well-formed structured value (wall-clock fields, fractional-second digits,
optional timezone offset) or a malformed blob.  Parsing turns the digit
list into nanoseconds (the datetime64[ns] value) and keeps the offset;
`tz_localize_none` drops the offset while keeping the local wall clock,
exactly as pandas `tz_localize(None)` does.  The flag variant parses with
`errors='coerce'` (failure becomes the NaT sentinel, modelled as `none`);
the pivot variant parses with the default `errors='raise'`, modelled as
`Except`.
-/

namespace BLE

/-- The beacon registry from `setup_beacon_dictionary`: MAC address to
RSSI column name, 25 entries, copied literally from the source. -/
def mac_to_rssi_column : List (String × String) :=
  [("F7:7F:78:76:7E:F3", "RSSI_1"),
   ("C6:CD:5E:3D:2F:BB", "RSSI_2"),
   ("D6:F4:3A:79:74:63", "RSSI_3"),
   ("C9:17:55:E2:3E:0E", "RSSI_4"),
   ("CA:60:AB:EE:EC:7F", "RSSI_5"),
   ("D6:51:7F:AB:0E:29", "RSSI_6"),
   ("CC:54:33:F6:A7:90", "RSSI_7"),
   ("EB:20:56:87:04:5A", "RSSI_8"),
   ("EE:E7:46:DC:19:6F", "RSSI_9"),
   ("C8:5B:BF:37:07:A0", "RSSI_10"),
   ("D7:26:F6:A3:44:D2", "RSSI_11"),
   ("DD:83:B0:27:FD:36", "RSSI_12"),
   ("E5:CD:4A:36:87:06", "RSSI_13"),
   ("DC:22:B8:17:4E:B5", "RSSI_14"),
   ("EA:09:20:80:D6:44", "RSSI_15"),
   ("E6:99:D1:EC:C6:81", "RSSI_16"),
   ("F6:DA:97:C7:D5:28", "RSSI_17"),
   ("EA:66:A1:12:2C:F4", "RSSI_18"),
   ("C9:EA:57:8B:0F:80", "RSSI_19"),
   ("D6:7C:1D:2C:2A:0A", "RSSI_20"),
   ("DA:E1:70:5F:44:97", "RSSI_21"),
   ("DD:10:10:F6:4F:27", "RSSI_22"),
   ("E6:F3:93:A8:9E:22", "RSSI_23"),
   ("E6:60:05:1F:88:F9", "RSSI_24"),
   ("D4:33:FD:F4:C2:A8", "RSSI_25")]

/-- `setup_beacon_dictionary` just returns the constant mapping. -/
def setup_beacon_dictionary : List (String × String) := mac_to_rssi_column

/-- The column list `[f'RSSI_{i}' for i in range(1, 26)]`. -/
def rssi_cols : List String :=
  (List.range' 1 25).map (fun i => "RSSI_" ++ toString i)

/-- `df['mac_address'].map(mac_to_rssi_column)`: dictionary lookup,
`none` (NaN) when the MAC address is not registered. -/
def rssiColumnOf (mac : String) : Option String :=
  mac_to_rssi_column.lookup mac

/-- Slot number (1-based) of an RSSI column name. -/
def slotOfColumn (c : String) : Option Nat :=
  (rssi_cols.findIdx? (fun s => s == c)).map (· + 1)

/-- The spec's `slot_for`: beacon slot (1..25) of a MAC address, `none`
when the MAC address is absent from the registry. -/
def slot_for (mac : String) : Option Nat :=
  (rssiColumnOf mac).bind slotOfColumn

/-! ### Timestamps -/

/-- A well-formed raw timestamp text: wall-clock fields, the decimal
digits of the fractional second, and an optional timezone offset in
minutes (`some 0` for a trailing `Z`). -/
structure RawTimestamp where
  year : Nat
  month : Nat
  day : Nat
  hour : Nat
  minute : Nat
  second : Nat
  fracDigits : List Nat
  tzOffsetMinutes : Option Int
deriving DecidableEq

/-- A raw timestamp cell: either well-formed or a malformed blob that
no recognized format parses. -/
inductive RawTsText where
  | wellFormed (ts : RawTimestamp)
  | malformed (s : String)
deriving DecidableEq

/-- A timezone-naive instant at datetime64[ns] resolution. -/
structure NaiveTimestamp where
  year : Nat
  month : Nat
  day : Nat
  hour : Nat
  minute : Nat
  second : Nat
  fracNs : Nat
deriving DecidableEq

/-- A possibly timezone-aware parsed timestamp: the local wall clock
plus the optional offset. -/
structure AwareTimestamp where
  wall : NaiveTimestamp
  tz : Option Int
deriving DecidableEq

/-- Value of a decimal digit list. -/
def digitVal (ds : List Nat) : Nat :=
  ds.foldl (fun acc d => acc * 10 + d) 0

/-- Fractional-second digits as nanoseconds (datetime64[ns] resolution,
digits beyond the ninth truncated). -/
def fracNanos (ds : List Nat) : Nat :=
  digitVal (ds.take 9) * 10 ^ (9 - (ds.take 9).length)

/-- The fractional-second value (of the full digit list) as a rational. -/
def fracValue (ds : List Nat) : ℚ :=
  (digitVal ds : ℚ) / (10 : ℚ) ^ ds.length

/-- Parsing a well-formed timestamp: wall clock kept digit-for-digit,
fraction converted to nanoseconds, offset kept. -/
def parseRawTimestamp (ts : RawTimestamp) : AwareTimestamp :=
  ⟨⟨ts.year, ts.month, ts.day, ts.hour, ts.minute, ts.second,
    fracNanos ts.fracDigits⟩, ts.tzOffsetMinutes⟩

/-- `pd.to_datetime(..., format='mixed', errors='coerce')`: a malformed
value becomes the NaT sentinel (`none`). -/
def to_datetime_coerce : RawTsText → Option AwareTimestamp
  | .wellFormed ts => some (parseRawTimestamp ts)
  | .malformed _ => none

/-- `pd.to_datetime(..., format='mixed')` with the default
`errors='raise'`: a malformed value raises. -/
def to_datetime_strict : RawTsText → Except String AwareTimestamp
  | .wellFormed ts => .ok (parseRawTimestamp ts)
  | .malformed s => .error ("time data " ++ s ++ " does not match any format")

/-- `tz_localize(None)`: drop the timezone, keeping the local wall
clock unchanged (no conversion to UTC). -/
def tz_localize_none (t : AwareTimestamp) : NaiveTimestamp := t.wall

/-- Timezone stripping lifted over the NaT sentinel. -/
def stripTzOpt (t : Option AwareTimestamp) : Option NaiveTimestamp :=
  t.map tz_localize_none

/-- Left-pad a number with zeros to the given width. -/
def padNum (width n : Nat) : String :=
  String.mk (List.replicate (width - (toString n).length) '0') ++ toString n

/-- `strftime('%Y-%m-%d')` on a naive instant. -/
def year_month_day (t : NaiveTimestamp) : String :=
  padNum 4 t.year ++ "-" ++ padNum 2 t.month ++ "-" ++ padNum 2 t.day

/-! ### Raw records -/

/-- A raw scan record as read by the loader (6-column headerless CSV). -/
structure RawRecord where
  pid : Int
  timestamp : RawTsText
  column3 : String
  mac_address : String
  rssi : ℚ
  column6 : String
deriving DecidableEq

/-! ### Flag-append variant (`transform_and_flag_data`) -/

/-- An output row of the flag-append variant.  `timestamp`, `ymd` and
`hourCol` are `none` exactly when the raw timestamp was unparseable
(NaT propagates to the derived columns). -/
structure FlagRow where
  user_id : Int
  timestamp : Option NaiveTimestamp
  mac_address : String
  RSSI : ℚ
  power : String
  ymd : Option String
  hourCol : Option Nat
  flags : List Nat
deriving DecidableEq

/-- The 25 flag cells produced for one mapped column value: for each
column, 1 when the row's target column equals it, else 0 (the
`df.loc[df['rssi_target_col'] == col, col] = 1` loop). -/
def flagsOfCol (o : Option String) : List Nat :=
  rssi_cols.map (fun c => if o == some c then 1 else 0)

/-- The per-row flag cells of a MAC address. -/
def flagsFor (mac : String) : List Nat :=
  flagsOfCol (rssiColumnOf mac)

/-- The per-record transformation of the flag-append variant: parse the
timestamp with coercion, strip the timezone, derive date and hour,
rename fields, and build the 25 flag cells. -/
def transformRecordFlag (r : RawRecord) : FlagRow :=
  let dt := stripTzOpt (to_datetime_coerce r.timestamp)
  { user_id := r.pid
    timestamp := dt
    mac_address := r.mac_address
    RSSI := r.rssi
    power := r.column6
    ymd := dt.map year_month_day
    hourCol := dt.map (·.hour)
    flags := flagsFor r.mac_address }

/-- Order key of a naive instant: lexicographic over the wall-clock
fields down to nanoseconds (order-isomorphic to chronological order on
in-range field values). -/
def tsVal (t : NaiveTimestamp) : Nat :=
  (((((t.year * 13 + t.month) * 32 + t.day) * 24 + t.hour) * 60
      + t.minute) * 60 + t.second) * 1000000000 + t.fracNs

/-- Timestamp comparison with the NaT sentinel last
(`na_position='last'`). -/
def tsLeOpt : Option NaiveTimestamp → Option NaiveTimestamp → Bool
  | _, none => true
  | none, some _ => false
  | some a, some b => decide (tsVal a ≤ tsVal b)

/-- The sort key of `sort_values(by=['user_id', 'timestamp'])`:
user id first, then timestamp. -/
def rowLe (a b : FlagRow) : Bool :=
  if a.user_id < b.user_id then true
  else if b.user_id < a.user_id then false
  else tsLeOpt a.timestamp b.timestamp

/-- The flag-append transformation: transform every record (no drop, no
merge), then a stable mergesort by (user_id, timestamp). -/
def transform_and_flag_data (recs : List RawRecord) : List FlagRow :=
  (recs.map transformRecordFlag).mergeSort rowLe

/-! ### Pivot variant (`transform_and_pivot_data`) -/

/-- A record of the pivot pipeline after timestamp parsing and
timezone stripping, with columns already renamed. -/
structure PRecord where
  user_id : Int
  ts : NaiveTimestamp
  mac_address : String
  RSSI : ℚ
  power : String
deriving DecidableEq

/-- The pivot variant's timestamp step: `pd.to_datetime(...,
format='mixed')` raises on any malformed value (no `errors='coerce'`),
then `tz_localize(None)` strips the timezone. -/
def parsePivotRecords (recs : List RawRecord) : Except String (List PRecord) :=
  recs.mapM (fun r =>
    (to_datetime_strict r.timestamp).map (fun t =>
      ⟨r.pid, tz_localize_none t, r.mac_address, r.rssi, r.column6⟩))

/-- The records of one (user_id, timestamp) group, in input order. -/
def groupRecs (recs : List PRecord) (u : Int) (t : NaiveTimestamp) :
    List PRecord :=
  recs.filter (fun r => r.user_id == u && r.ts == t)

/-- The records whose MAC address is registered (`rssi_column` not NaN);
`pivot_table` silently drops the rest, because a NaN in the `columns`
key is excluded from the groupby. -/
def matchedRecs (recs : List PRecord) : List PRecord :=
  recs.filter (fun r => (rssiColumnOf r.mac_address).isSome)

/-- Group-key comparison used by `pivot_table` when sorting the index. -/
def keyLe (a b : Int × NaiveTimestamp) : Bool :=
  if a.1 < b.1 then true
  else if b.1 < a.1 then false
  else decide (tsVal a.2 ≤ tsVal b.2)

/-- The (user_id, timestamp) index of the pivot: the distinct keys of
the records with a registered MAC, sorted. -/
def pivotKeys (recs : List PRecord) : List (Int × NaiveTimestamp) :=
  (((matchedRecs recs).map (fun r => (r.user_id, r.ts))).dedup).mergeSort keyLe

/-- The group's signal values for one RSSI column. -/
def slotVals (g : List PRecord) (c : String) : List ℚ :=
  (g.filter (fun r => rssiColumnOf r.mac_address == some c)).map (fun r => r.RSSI)

/-- Arithmetic mean of a value list, `none` when empty (NaN). -/
def listMean (xs : List ℚ) : Option ℚ :=
  if xs.isEmpty then none else some (xs.sum / (xs.length : ℚ))

/-- One pivot cell: `aggfunc='mean'` over the group's matching records,
absent (NaN) when no record of the group matches the column. -/
def pivotCol (g : List PRecord) (c : String) : Option ℚ :=
  listMean (slotVals g c)

/-- An output row of the pivot variant before binarization: the 25
`RSSI_i` cells are means (`none` = NaN), `RSSI` is the row mean over
the present cells. -/
structure PivotRow where
  user_id : Int
  timestamp : NaiveTimestamp
  mac_address : String
  RSSI : Option ℚ
  power : String
  ymd : String
  hourCol : Nat
  rssiCells : List (Option ℚ)
deriving DecidableEq

/-- One pivot row for a group key: the 25 cells via `pivot_table`, the
representative `mac_address` and `power` via `groupby(...).agg('first')`
over all records of the group (merged back with `how='left'`), and
`RSSI` as `mean(axis=1, skipna=True)` over the 25 cells. -/
def buildPivotRow (recs : List PRecord) (k : Int × NaiveTimestamp) :
    PivotRow :=
  let g := groupRecs recs k.1 k.2
  let cells := rssi_cols.map (fun c => pivotCol g c)
  let fv := g.head?
  { user_id := k.1
    timestamp := k.2
    mac_address := (fv.map (fun r => r.mac_address)).getD ""
    RSSI := listMean (cells.filterMap id)
    power := (fv.map (fun r => r.power)).getD ""
    ymd := year_month_day k.2
    hourCol := k.2.hour
    rssiCells := cells }

/-- The pivot rows built over a parsed record list. -/
def pivotRows (ps : List PRecord) : List PivotRow :=
  (pivotKeys ps).map (buildPivotRow ps)

/-- `transform_and_pivot_data`: parse (raising on malformed timestamps),
group and pivot. -/
def transform_and_pivot_data (recs : List RawRecord) :
    Except String (List PivotRow) :=
  (parsePivotRecords recs).map pivotRows

/-- A final output row of the pivot variant, the 25 cells binarized. -/
structure BinRow where
  user_id : Int
  timestamp : NaiveTimestamp
  mac_address : String
  RSSI : Option ℚ
  power : String
  ymd : String
  hourCol : Nat
  flags : List Nat
deriving DecidableEq

/-- `convert_rssi_to_binary` on one row: each RSSI cell becomes
`notna().astype(int)`; every other column is unchanged. -/
def binarizeRow (row : PivotRow) : BinRow :=
  { user_id := row.user_id
    timestamp := row.timestamp
    mac_address := row.mac_address
    RSSI := row.RSSI
    power := row.power
    ymd := row.ymd
    hourCol := row.hourCol
    flags := row.rssiCells.map (fun v => if v.isSome then 1 else 0) }

/-- `convert_rssi_to_binary` over the whole table. -/
def convert_rssi_to_binary (rows : List PivotRow) : List BinRow :=
  rows.map binarizeRow

/-- The pivot pipeline output after binarization, over parsed records. -/
def binPivotRows (ps : List PRecord) : List BinRow :=
  convert_rssi_to_binary (pivotRows ps)

/-! ### Spec-side definitions (for refinement claims) -/

/-- Modelled from the spec: the number of distinct known beacons
observed in a group — the count of slots `i` in 1..25 such that some
record of the group carries slot `i`'s MAC address. -/
def observedSlotCount (g : List PRecord) : Nat :=
  (((List.range' 1 25).filter
      (fun i => g.any (fun r => slot_for r.mac_address == some i)))).length

/-- Modelled from the spec: the overall signal strength of a group —
the arithmetic mean, over exactly the beacon slots observed in the
group, of the per-slot averages; absent when no slot is observed. -/
def specGroupSignal (g : List PRecord) : Option ℚ :=
  listMean ((List.range' 1 25).filterMap (fun i =>
    listMean ((g.filter
      (fun r => slot_for r.mac_address == some i)).map (fun r => r.RSSI))))

/-! ### Concrete inputs used as evaluation witnesses -/

/-- The raw timestamp of the spec's concrete scenario,
`2024-03-01T08:15:30.5` (no timezone). -/
def wfTs1 : RawTsText := .wellFormed ⟨2024, 3, 1, 8, 15, 30, [5], none⟩

/-- First record of the spec's concrete scenario (beacon 1, -60.0). -/
def recA : RawRecord := ⟨1, wfTs1, "-", "F7:7F:78:76:7E:F3", -60, "-"⟩

/-- Second record of the spec's concrete scenario (beacon 2, -55.0). -/
def recB : RawRecord := ⟨1, wfTs1, "-", "C6:CD:5E:3D:2F:BB", -55, "-"⟩

/-- A record with the unknown MAC address of the spec's scenarios. -/
def recU : RawRecord := ⟨1, wfTs1, "-", "00:00:00:00:00:00", -50, "-"⟩

/-- A record whose timestamp no recognized format parses. -/
def badRec : RawRecord :=
  ⟨7, .malformed "not-a-timestamp", "-", "F7:7F:78:76:7E:F3", -40, "-"⟩

/-- The raw timestamp `2024-01-01T10:00:00.123456Z` of the spec's
normalization example (`Z` = offset 0). -/
def exTs : RawTimestamp := ⟨2024, 1, 1, 10, 0, 0, [1, 2, 3, 4, 5, 6], some 0⟩

/-- The parsed timestamp of the spec's concrete scenario. -/
def tsAB : NaiveTimestamp := ⟨2024, 3, 1, 8, 15, 30, 500000000⟩

/-- The parsed form of `recU` (unknown MAC). -/
def pU : PRecord := ⟨1, tsAB, "00:00:00:00:00:00", -50, "-"⟩

/-- The parsed records of the spec's concrete scenario, as the pivot
pipeline sees them after timestamp parsing. -/
def psAB : List PRecord :=
  [⟨1, ⟨2024, 3, 1, 8, 15, 30, 500000000⟩, "F7:7F:78:76:7E:F3", -60, "-"⟩,
   ⟨1, ⟨2024, 3, 1, 8, 15, 30, 500000000⟩, "C6:CD:5E:3D:2F:BB", -55, "-"⟩]

end BLE

namespace BLE

/-! ### Registry lemmas -/

theorem rssiColumnOf_cases (mac : String) :
    rssiColumnOf mac = none ∨
      rssiColumnOf mac ∈ mac_to_rssi_column.map (fun p => some p.2) := by
  cases h : rssiColumnOf mac with
  | none => exact Or.inl rfl
  | some c =>
    right
    simp only [rssiColumnOf] at h
    obtain ⟨l₁, l₂, he, -⟩ := List.lookup_eq_some_iff.mp h
    rw [List.mem_map]
    refine ⟨(mac, c), ?_, rfl⟩
    rw [he]
    exact List.mem_append_right _ (List.mem_cons_self _ _)

theorem flags_spec_aux :
    ∀ o ∈ ((none : Option String) :: mac_to_rssi_column.map (fun p => some p.2)),
    ((o.bind slotOfColumn = none) →
      ∀ j, j < 25 → (flagsOfCol o)[j]? = some 0) ∧
    ((o.bind slotOfColumn).isSome →
      1 ≤ (o.bind slotOfColumn).getD 0 ∧ (o.bind slotOfColumn).getD 0 ≤ 25 ∧
      (flagsOfCol o)[(o.bind slotOfColumn).getD 0 - 1]? = some 1 ∧
      ∀ j, j < 25 → j ≠ (o.bind slotOfColumn).getD 0 - 1 →
        (flagsOfCol o)[j]? = some 0) := by decide

theorem flags_spec (mac : String) :
    (slot_for mac = none → ∀ j, j < 25 → (flagsFor mac)[j]? = some 0) ∧
    (∀ k, slot_for mac = some k →
      1 ≤ k ∧ k ≤ 25 ∧ (flagsFor mac)[k - 1]? = some 1 ∧
      ∀ j, j < 25 → j ≠ k - 1 → (flagsFor mac)[j]? = some 0) := by
  have hmem : (rssiColumnOf mac) ∈
      ((none : Option String) :: mac_to_rssi_column.map (fun p => some p.2)) := by
    rcases rssiColumnOf_cases mac with h | h
    · rw [h]; exact List.mem_cons_self _ _
    · exact List.mem_cons_of_mem _ h
  have h := flags_spec_aux _ hmem
  constructor
  · intro h0
    exact h.1 h0
  · intro k hk
    have hk' : (rssiColumnOf mac).bind slotOfColumn = some k := hk
    have hs : ((rssiColumnOf mac).bind slotOfColumn).isSome := by
      rw [hk']; rfl
    have h2 := h.2 hs
    rw [hk'] at h2
    simpa using h2

theorem flagsFor_length (mac : String) : (flagsFor mac).length = 25 := by
  simp [flagsFor, flagsOfCol, rssi_cols]

/-- C5: the beacon registry is a fixed mapping of exactly 25 MAC
addresses; each registered MAC address maps to exactly one slot, the 25
assigned slots are exactly 1..25 in order (a permutation, no
collisions, dense), and looking up an unregistered MAC address returns
`none` rather than failing. -/
theorem registry_is_permutation :
    mac_to_rssi_column.length = 25 ∧
    (mac_to_rssi_column.map Prod.fst).Nodup ∧
    mac_to_rssi_column.map (fun p => slot_for p.1) = (List.range' 1 25).map some ∧
    slot_for "00:00:00:00:00:00" = none := by decide

/-- C1: in flag-append mode every input record yields exactly one
output row (output count = input count), and in each output row, if the
MAC address has slot k in the registry then flag k is 1 and the other
24 flags are 0, while an unregistered MAC address leaves all 25 flags
at 0. -/
theorem flag_append_one_hot (recs : List RawRecord) :
    (transform_and_flag_data recs).length = recs.length ∧
    ∀ row ∈ transform_and_flag_data recs,
      row.flags.length = 25 ∧
      (slot_for row.mac_address = none →
        ∀ j, j < 25 → row.flags[j]? = some 0) ∧
      (∀ k, slot_for row.mac_address = some k →
        1 ≤ k ∧ k ≤ 25 ∧ row.flags[k - 1]? = some 1 ∧
        ∀ j, j < 25 → j ≠ k - 1 → row.flags[j]? = some 0) := by
  constructor
  · simp [transform_and_flag_data]
  · intro row hrow
    rw [transform_and_flag_data, List.mem_mergeSort, List.mem_map] at hrow
    obtain ⟨r, _, rfl⟩ := hrow
    exact ⟨flagsFor_length r.mac_address,
      (flags_spec r.mac_address).1, (flags_spec r.mac_address).2⟩

/-- Witness for C1, at the spec's concrete beacon-1 record. -/
theorem flag_append_one_hot_witness :
    (transform_and_flag_data [recA]).length = [recA].length ∧
    ((transformRecordFlag recA).flags.length = 25 ∧
     (slot_for (transformRecordFlag recA).mac_address = none →
       ∀ j, j < 25 → (transformRecordFlag recA).flags[j]? = some 0) ∧
     (∀ k, slot_for (transformRecordFlag recA).mac_address = some k →
       1 ≤ k ∧ k ≤ 25 ∧ (transformRecordFlag recA).flags[k - 1]? = some 1 ∧
       ∀ j, j < 25 → j ≠ k - 1 → (transformRecordFlag recA).flags[j]? = some 0)) :=
  ⟨(flag_append_one_hot [recA]).1,
   (flag_append_one_hot [recA]).2 (transformRecordFlag recA)
     (by simp [transform_and_flag_data])⟩

/-- C10: the flag-append output is a permutation of the per-record
transforms, and each record's transform keeps its user id, MAC address,
signal strength and power unchanged, the timestamp being only
normalized; the transform adds the derived columns and nothing else. -/
theorem flag_append_frame (recs : List RawRecord) :
    List.Perm (transform_and_flag_data recs) (recs.map transformRecordFlag) ∧
    ∀ r ∈ recs,
      transformRecordFlag r ∈ transform_and_flag_data recs ∧
      (transformRecordFlag r).user_id = r.pid ∧
      (transformRecordFlag r).mac_address = r.mac_address ∧
      (transformRecordFlag r).RSSI = r.rssi ∧
      (transformRecordFlag r).power = r.column6 ∧
      (transformRecordFlag r).timestamp = stripTzOpt (to_datetime_coerce r.timestamp) := by
  constructor
  · exact List.mergeSort_perm _ _
  · intro r hr
    refine ⟨?_, rfl, rfl, rfl, rfl, rfl⟩
    rw [transform_and_flag_data, List.mem_mergeSort]
    exact List.mem_map_of_mem _ hr

/-- Witness for C10, at the spec's concrete beacon-1 record. -/
theorem flag_append_frame_witness :
    List.Perm (transform_and_flag_data [recA]) ([recA].map transformRecordFlag) ∧
    (transformRecordFlag recA ∈ transform_and_flag_data [recA] ∧
     (transformRecordFlag recA).user_id = recA.pid ∧
     (transformRecordFlag recA).mac_address = recA.mac_address ∧
     (transformRecordFlag recA).RSSI = recA.rssi ∧
     (transformRecordFlag recA).power = recA.column6 ∧
     (transformRecordFlag recA).timestamp = stripTzOpt (to_datetime_coerce recA.timestamp)) :=
  ⟨(flag_append_frame [recA]).1,
   (flag_append_frame [recA]).2 recA (by simp)⟩

end BLE

namespace BLE

/-! ### Order lemmas for the flag-append sort -/

theorem tsLeOpt_refl (t : Option NaiveTimestamp) : tsLeOpt t t = true := by
  cases t <;> simp [tsLeOpt]

theorem tsLeOpt_trans (a b c : Option NaiveTimestamp) :
    tsLeOpt a b = true → tsLeOpt b c = true → tsLeOpt a c = true := by
  cases a <;> cases b <;> cases c <;> simp [tsLeOpt] <;> omega

theorem tsLeOpt_total (a b : Option NaiveTimestamp) :
    tsLeOpt a b = true ∨ tsLeOpt b a = true := by
  cases a <;> cases b <;> simp [tsLeOpt] <;> omega

theorem rowLe_iff (a b : FlagRow) : rowLe a b = true ↔
    (a.user_id < b.user_id ∨
      (¬ b.user_id < a.user_id ∧ tsLeOpt a.timestamp b.timestamp = true)) := by
  unfold rowLe
  by_cases h1 : a.user_id < b.user_id <;> by_cases h2 : b.user_id < a.user_id <;>
    simp [h1, h2]

theorem rowLe_trans (a b c : FlagRow) :
    rowLe a b → rowLe b c → rowLe a c := by
  intro h1 h2
  rw [rowLe_iff] at h1 h2 ⊢
  rcases h1 with h1 | ⟨h1a, h1b⟩ <;> rcases h2 with h2 | ⟨h2a, h2b⟩
  · exact Or.inl (h1.trans h2)
  · exact Or.inl (by omega)
  · exact Or.inl (by omega)
  · exact Or.inr ⟨by omega, tsLeOpt_trans _ _ _ h1b h2b⟩

theorem rowLe_total (a b : FlagRow) : (rowLe a b || rowLe b a) = true := by
  rw [Bool.or_eq_true, rowLe_iff, rowLe_iff]
  rcases lt_trichotomy a.user_id b.user_id with h | h | h
  · exact Or.inl (Or.inl h)
  · rcases tsLeOpt_total a.timestamp b.timestamp with ht | ht
    · exact Or.inl (Or.inr ⟨by omega, ht⟩)
    · exact Or.inr (Or.inr ⟨by omega, ht⟩)
  · exact Or.inr (Or.inl h)

/-- C6: the flag-append output is non-decreasing in the
(user_id, timestamp) key (NaT last), and the sort is stable: for every
key, the output rows with that key are exactly the transformed input
rows with that key, in input order. -/
theorem flag_append_sorted_and_stable (recs : List RawRecord) :
    List.Pairwise (fun a b => rowLe a b = true) (transform_and_flag_data recs) ∧
    ∀ (u : Int) (t : Option NaiveTimestamp),
      (transform_and_flag_data recs).filter
          (fun r => r.user_id == u && r.timestamp == t)
        = (recs.map transformRecordFlag).filter
          (fun r => r.user_id == u && r.timestamp == t) := by
  constructor
  · exact List.sorted_mergeSort rowLe_trans rowLe_total _
  · intro u t
    set p : FlagRow → Bool := fun r => r.user_id == u && r.timestamp == t with hp
    set l : List FlagRow := recs.map transformRecordFlag with hl
    have hkey : ∀ x, p x = true → x.user_id = u ∧ x.timestamp = t := by
      intro x hx
      rw [hp] at hx
      simpa using hx
    have hc : ∀ x ∈ l.filter p, ∀ y ∈ l.filter p, rowLe x y = true := by
      intro x hx y hy
      obtain ⟨hxu, hxt⟩ := hkey x (List.mem_filter.mp hx).2
      obtain ⟨hyu, hyt⟩ := hkey y (List.mem_filter.mp hy).2
      rw [rowLe_iff, hxu, hyu, hxt, hyt]
      exact Or.inr ⟨lt_irrefl u, tsLeOpt_refl t⟩
    have hpair : (l.filter p).Pairwise (fun a b => rowLe a b = true) :=
      List.pairwise_of_forall_mem_list hc
    have hsub : List.Sublist (l.filter p) l := List.filter_sublist l
    have h1 : List.Sublist (l.filter p) (l.mergeSort rowLe) :=
      List.sublist_mergeSort rowLe_trans rowLe_total hpair hsub
    have h2 : List.Sublist (l.filter p) ((l.mergeSort rowLe).filter p) := by
      have h3 := h1.filter p
      have h4 : (l.filter p).filter p = l.filter p := by
        rw [List.filter_filter]
        exact List.filter_congr (fun x _ => by cases hx : p x <;> simp [hx])
      rwa [h4] at h3
    have hlen : (l.filter p).length = ((l.mergeSort rowLe).filter p).length :=
      (((List.mergeSort_perm l rowLe).filter p).length_eq).symm
    exact (h2.eq_of_length hlen).symm

end BLE

namespace BLE

/-! ### Timestamp normalization (C7) and unparseable timestamps (C8) -/

/-- C7: for a raw timestamp that parses, normalization strips any
timezone indicator without changing the local wall-clock digits (the
result is identical to normalizing the same digits without a timezone —
no UTC conversion), preserves the fractional-second value exactly, and
derives the calendar-day text and an hour in 0..23. -/
theorem timestamp_normalization (ts : RawTimestamp)
    (hlen : ts.fracDigits.length ≤ 9) (hh : ts.hour < 24) :
    stripTzOpt (to_datetime_coerce (.wellFormed ts))
        = some (tz_localize_none (parseRawTimestamp ts)) ∧
    (tz_localize_none (parseRawTimestamp ts)).year = ts.year ∧
    (tz_localize_none (parseRawTimestamp ts)).month = ts.month ∧
    (tz_localize_none (parseRawTimestamp ts)).day = ts.day ∧
    (tz_localize_none (parseRawTimestamp ts)).hour = ts.hour ∧
    (tz_localize_none (parseRawTimestamp ts)).minute = ts.minute ∧
    (tz_localize_none (parseRawTimestamp ts)).second = ts.second ∧
    tz_localize_none (parseRawTimestamp ts)
      = tz_localize_none (parseRawTimestamp
          { ts with tzOffsetMinutes := none }) ∧
    ((tz_localize_none (parseRawTimestamp ts)).fracNs : ℚ) / 1000000000
      = fracValue ts.fracDigits ∧
    year_month_day (tz_localize_none (parseRawTimestamp ts))
      = padNum 4 ts.year ++ "-" ++ padNum 2 ts.month ++ "-" ++ padNum 2 ts.day ∧
    (tz_localize_none (parseRawTimestamp ts)).hour < 24 := by
  refine ⟨rfl, rfl, rfl, rfl, rfl, rfl, rfl, rfl, ?_, rfl, hh⟩
  show ((fracNanos ts.fracDigits : ℚ)) / 1000000000 = fracValue ts.fracDigits
  rw [fracNanos, List.take_of_length_le hlen, fracValue]
  have hne : ((10 : ℚ)) ^ ts.fracDigits.length ≠ 0 := by positivity
  rw [div_eq_div_iff (by norm_num) hne]
  push_cast
  have h10 : (1000000000 : ℚ) = 10 ^ 9 := by norm_num
  have hsum : 9 - ts.fracDigits.length + ts.fracDigits.length = 9 := by omega
  rw [h10, mul_assoc, ← pow_add, hsum]

/-- Witness for C7 at the spec's example `2024-01-01T10:00:00.123456Z`:
the hypotheses hold, the normalized instant keeps the .123456 fraction,
and hour = 10 with date "2024-01-01". -/
theorem timestamp_normalization_witness :
    (exTs.fracDigits.length ≤ 9 ∧ exTs.hour < 24) ∧
    ((tz_localize_none (parseRawTimestamp exTs)).fracNs = 123456000 ∧
     (tz_localize_none (parseRawTimestamp exTs)).hour = 10 ∧
     year_month_day (tz_localize_none (parseRawTimestamp exTs)) = "2024-01-01" ∧
     exTs.tzOffsetMinutes = some 0) ∧
    (((tz_localize_none (parseRawTimestamp exTs)).fracNs : ℚ) / 1000000000
        = fracValue exTs.fracDigits ∧
     (tz_localize_none (parseRawTimestamp exTs)).hour < 24) :=
  ⟨⟨by decide, by decide⟩,
   ⟨by decide, by decide, by decide, by decide⟩,
   ⟨((timestamp_normalization exTs (by decide) (by decide)).2.2.2.2.2.2.2.2).1,
    ((timestamp_normalization exTs (by decide) (by decide)).2.2.2.2.2.2.2.2).2.2⟩⟩

theorem mapM_except_error {α β : Type}
    (f : α → Except String β) (l : List α) (a : α)
    (hmem : a ∈ l) (e : String) (herr : f a = .error e) :
    ∃ e2, l.mapM f = .error e2 := by
  induction l with
  | nil => cases hmem
  | cons x xs ih =>
    rw [List.mapM_cons]
    cases hfx : f x with
    | error ex =>
      exact ⟨ex, rfl⟩
    | ok y =>
      rcases List.mem_cons.mp hmem with rfl | hmem2
      · rw [hfx] at herr
        cases herr
      · obtain ⟨e2, he2⟩ := ih hmem2
        refine ⟨e2, ?_⟩
        show List.cons y <$> xs.mapM f = Except.error e2
        rw [he2]
        rfl

/-- C8 counterexample: a record whose timestamp no format parses makes
the pivot pipeline raise (the run aborts with an error) instead of
retaining the record with a sentinel, refuting the claim for pivot
mode. -/
theorem unparseable_pivot_aborts_counterexample :
    badRec.timestamp = .malformed "not-a-timestamp" ∧
    transform_and_pivot_data [badRec]
      = .error "time data not-a-timestamp does not match any format" :=
  ⟨rfl, rfl⟩

/-- C8 amended: in flag-append mode an unparseable timestamp becomes
the NaT sentinel (`none`), the record is retained and the run
continues; in pivot mode, by contrast, any record with an unparseable
timestamp makes the whole run abort with an error. -/
theorem unparseable_sentinel_flag_only (recs : List RawRecord) :
    ((transform_and_flag_data recs).length = recs.length ∧
     ∀ r ∈ recs, ∀ s, r.timestamp = .malformed s →
       transformRecordFlag r ∈ transform_and_flag_data recs ∧
       (transformRecordFlag r).timestamp = none) ∧
    (∀ r ∈ recs, ∀ s, r.timestamp = .malformed s →
      ∃ e, transform_and_pivot_data recs = .error e) := by
  refine ⟨⟨by simp [transform_and_flag_data], ?_⟩, ?_⟩
  · intro r hr s hs
    constructor
    · rw [transform_and_flag_data, List.mem_mergeSort]
      exact List.mem_map_of_mem _ hr
    · simp [transformRecordFlag, hs, to_datetime_coerce, stripTzOpt]
  · intro r hr s hs
    have herr : (to_datetime_strict r.timestamp).map
        (fun t => (⟨r.pid, tz_localize_none t, r.mac_address, r.rssi, r.column6⟩ : PRecord))
        = .error ("time data " ++ s ++ " does not match any format") := by
      rw [hs]
      rfl
    obtain ⟨e2, he2⟩ := mapM_except_error
      (fun rr : RawRecord => (to_datetime_strict rr.timestamp).map (fun t =>
        (⟨rr.pid, tz_localize_none t, rr.mac_address, rr.rssi, rr.column6⟩ : PRecord)))
      recs r hr _ herr
    refine ⟨e2, ?_⟩
    rw [transform_and_pivot_data, parsePivotRecords, he2]
    rfl

/-- Witness for C8's amended claim at the concrete unparseable record. -/
theorem unparseable_sentinel_flag_only_witness :
    ((transform_and_flag_data [badRec]).length = [badRec].length ∧
     (transformRecordFlag badRec ∈ transform_and_flag_data [badRec] ∧
      (transformRecordFlag badRec).timestamp = none)) ∧
    (∃ e, transform_and_pivot_data [badRec] = .error e) :=
  ⟨⟨(unparseable_sentinel_flag_only [badRec]).1.1,
    (unparseable_sentinel_flag_only [badRec]).1.2 badRec (by simp)
      "not-a-timestamp" rfl⟩,
   (unparseable_sentinel_flag_only [badRec]).2 badRec (by simp)
     "not-a-timestamp" rfl⟩

end BLE

namespace BLE

/-! ### Pivot pipeline lemmas -/

theorem slotOfColumn_std :
    ∀ i ∈ List.range' 1 25, slotOfColumn ("RSSI_" ++ toString i) = some i := by
  decide

theorem slotOfColumn_values :
    ∀ c ∈ mac_to_rssi_column.map Prod.snd, ∀ i ∈ List.range' 1 25,
      (slotOfColumn c = some i ↔ c = "RSSI_" ++ toString i) := by
  decide

theorem dict_values_eq_cols : mac_to_rssi_column.map Prod.snd = rssi_cols := by
  decide

theorem rssi_cols_getElem :
    ∀ i ∈ List.range' 1 25, rssi_cols[i - 1]? = some ("RSSI_" ++ toString i) := by
  decide

theorem rssiColumnOf_mem_values {mac : String} {c : String}
    (h : rssiColumnOf mac = some c) :
    c ∈ mac_to_rssi_column.map Prod.snd := by
  rcases rssiColumnOf_cases mac with h0 | h0
  · rw [h0] at h
    cases h
  · rw [h] at h0
    obtain ⟨p, hp, he⟩ := List.mem_map.mp h0
    have h2 := Option.some.inj he
    rw [← h2]
    exact List.mem_map_of_mem _ hp

theorem col_slot_iff (mac : String) (i : Nat) (hi : i ∈ List.range' 1 25) :
    rssiColumnOf mac = some ("RSSI_" ++ toString i) ↔ slot_for mac = some i := by
  constructor
  · intro h
    rw [slot_for, h]
    exact slotOfColumn_std i hi
  · intro h
    rw [slot_for] at h
    obtain ⟨c, hc, hsc⟩ := Option.bind_eq_some.mp h
    have hcv := rssiColumnOf_mem_values hc
    have h2 := (slotOfColumn_values c hcv i hi).mp hsc
    rw [hc, h2]

theorem slotVals_slot (g : List PRecord) (i : Nat) (hi : i ∈ List.range' 1 25) :
    slotVals g ("RSSI_" ++ toString i)
      = (g.filter (fun r => slot_for r.mac_address == some i)).map
          (fun r => r.RSSI) := by
  rw [slotVals]
  congr 1
  apply List.filter_congr
  intro r _
  rw [Bool.eq_iff_iff, beq_iff_eq, beq_iff_eq]
  exact col_slot_iff r.mac_address i hi

theorem listMean_isSome (xs : List ℚ) : (listMean xs).isSome ↔ xs ≠ [] := by
  rw [listMean]
  rcases xs with _ | ⟨x, xs⟩ <;> simp

theorem pivotCol_isSome (g : List PRecord) (c : String) :
    (pivotCol g c).isSome ↔ ∃ r ∈ g, rssiColumnOf r.mac_address = some c := by
  rw [pivotCol, listMean_isSome, slotVals, ne_eq, List.map_eq_nil_iff,
    List.filter_eq_nil_iff]
  simp

theorem mem_pivotKeys (ps : List PRecord) (k : Int × NaiveTimestamp) :
    k ∈ pivotKeys ps ↔
      ∃ r ∈ ps, r.user_id = k.1 ∧ r.ts = k.2 ∧
        (rssiColumnOf r.mac_address).isSome := by
  obtain ⟨ku, kt⟩ := k
  rw [pivotKeys, List.mem_mergeSort, List.mem_dedup, List.mem_map]
  constructor
  · rintro ⟨r, hr, he⟩
    rw [matchedRecs, List.mem_filter] at hr
    have h1 := (Prod.mk.injEq _ _ _ _).mp he
    exact ⟨r, hr.1, h1.1, h1.2, hr.2⟩
  · rintro ⟨r, hr, hu, ht, hm⟩
    refine ⟨r, ?_, ?_⟩
    · rw [matchedRecs, List.mem_filter]
      exact ⟨hr, hm⟩
    · rw [hu, ht]

theorem mem_binPivotRows (ps : List PRecord) (row : BinRow) :
    row ∈ binPivotRows ps ↔
      ∃ k ∈ pivotKeys ps, row = binarizeRow (buildPivotRow ps k) := by
  rw [binPivotRows, convert_rssi_to_binary, pivotRows]
  constructor
  · intro h
    obtain ⟨prow, hpro, he⟩ := List.mem_map.mp h
    obtain ⟨k, hk, hb⟩ := List.mem_map.mp hpro
    exact ⟨k, hk, by rw [← he, ← hb]⟩
  · rintro ⟨k, hk, rfl⟩
    exact List.mem_map_of_mem _ (List.mem_map_of_mem _ hk)

/-- C2 counterexample: the one-record input with the unknown MAC
`00:00:00:00:00:00` parses into one record whose (user_id, timestamp)
group exists and matches no registry beacon, yet the pivot output is
empty — the group is dropped, not emitted with all flags 0. -/
theorem pivot_unmatched_group_counterexample :
    parsePivotRecords [recU] = .ok [pU] ∧
    slot_for pU.mac_address = none ∧
    transform_and_pivot_data [recU] = .ok [] := by
  refine ⟨rfl, by decide, ?_⟩
  have h1 : parsePivotRecords [recU] = .ok [pU] := rfl
  rw [transform_and_pivot_data, h1]
  show Except.ok (pivotRows [pU]) = Except.ok []
  have h2 : ((matchedRecs [pU]).map (fun r => (r.user_id, r.ts))).dedup
      = [] := by decide
  rw [pivotRows, pivotKeys, h2, List.mergeSort_nil]
  rfl

/-- C2 amended: in pivot mode a (user_id, timestamp) group appears in
the output if and only if at least one of its records has a MAC address
in the registry; a group whose records all have unregistered MAC
addresses is dropped from the output entirely (it does not appear with
all flags 0). -/
theorem pivot_group_appears_iff_matched (ps : List PRecord)
    (u : Int) (t : NaiveTimestamp) :
    (∃ row ∈ pivotRows ps, row.user_id = u ∧ row.timestamp = t) ↔
    (∃ r ∈ ps, r.user_id = u ∧ r.ts = t ∧
      (rssiColumnOf r.mac_address).isSome) := by
  constructor
  · rintro ⟨row, hrow, hu, ht⟩
    obtain ⟨k, hk, he⟩ := List.mem_map.mp hrow
    have hku : row.user_id = k.1 := by rw [← he]; rfl
    have hkt : row.timestamp = k.2 := by rw [← he]; rfl
    have h2 := (mem_pivotKeys ps k).mp hk
    rw [← hku, ← hkt, hu, ht] at h2
    exact h2
  · rintro ⟨r, hr, hu, ht, hm⟩
    have hk : (u, t) ∈ pivotKeys ps :=
      (mem_pivotKeys ps (u, t)).mpr ⟨r, hr, hu, ht, hm⟩
    exact ⟨buildPivotRow ps (u, t), List.mem_map_of_mem _ hk, rfl, rfl⟩

end BLE

namespace BLE

/-! ### Pivot flags, signal mean and representative (C3, C4, C9) -/

theorem indicator_sum (g : List PRecord) (l : List String) :
    (l.map (fun c => if (pivotCol g c).isSome then (1 : Nat) else 0)).sum
      = (l.filter (fun c => (pivotCol g c).isSome)).length := by
  induction l with
  | nil => rfl
  | cons x xs ih =>
    by_cases hx : (pivotCol g x).isSome <;>
      simp [hx, ih, List.filter_cons] <;> omega

theorem binarize_build_flags (ps : List PRecord) (ku : Int) (kt : NaiveTimestamp) :
    (binarizeRow (buildPivotRow ps (ku, kt))).flags
      = rssi_cols.map
          (fun c => if (pivotCol (groupRecs ps ku kt) c).isSome then 1 else 0) := by
  show (rssi_cols.map (fun c => pivotCol (groupRecs ps ku kt) c)).map
      (fun v => if v.isSome then 1 else 0) = _
  rw [List.map_map]
  rfl

/-- C3: in pivot mode, for every output row and every slot i in 1..25,
flag i is 1 exactly when some record of the row's (user_id, timestamp)
group carries slot i's MAC address, and the sum of the 25 flags equals
the number of distinct known beacons observed in the group. -/
theorem pivot_flags_match_group (ps : List PRecord) :
    ∀ row ∈ binPivotRows ps,
      row.flags.length = 25 ∧
      (∀ i ∈ List.range' 1 25,
        (row.flags[i - 1]? = some 1 ↔
          ∃ r ∈ groupRecs ps row.user_id row.timestamp,
            slot_for r.mac_address = some i)) ∧
      row.flags.sum
        = observedSlotCount (groupRecs ps row.user_id row.timestamp) := by
  intro row hrow
  obtain ⟨k, hk, rfl⟩ := (mem_binPivotRows ps row).mp hrow
  obtain ⟨ku, kt⟩ := k
  have huid : (binarizeRow (buildPivotRow ps (ku, kt))).user_id = ku := rfl
  have hts : (binarizeRow (buildPivotRow ps (ku, kt))).timestamp = kt := rfl
  rw [binarize_build_flags, huid, hts]
  set g := groupRecs ps ku kt with hg
  refine ⟨?_, ?_, ?_⟩
  · rw [List.length_map, rssi_cols, List.length_map, List.length_range']
  · intro i hi
    rw [List.getElem?_map, rssi_cols_getElem i hi, Option.map_some',
      Option.some_inj]
    constructor
    · intro h1
      by_cases hs : (pivotCol g ("RSSI_" ++ toString i)).isSome
      · obtain ⟨r, hr, hrc⟩ := (pivotCol_isSome g _).mp hs
        exact ⟨r, hr, (col_slot_iff r.mac_address i hi).mp hrc⟩
      · rw [if_neg hs] at h1
        exact absurd h1 (by decide)
    · rintro ⟨r, hr, hslot⟩
      have hs : (pivotCol g ("RSSI_" ++ toString i)).isSome :=
        (pivotCol_isSome g _).mpr
          ⟨r, hr, (col_slot_iff r.mac_address i hi).mpr hslot⟩
      rw [if_pos hs]
  · rw [indicator_sum, observedSlotCount, rssi_cols, List.filter_map,
      List.length_map]
    congr 1
    apply List.filter_congr
    intro i hi
    rw [Bool.eq_iff_iff, Function.comp_apply, List.any_eq_true]
    constructor
    · intro hs
      obtain ⟨r, hr, hrc⟩ := (pivotCol_isSome g _).mp hs
      refine ⟨r, hr, ?_⟩
      rw [beq_iff_eq]
      exact (col_slot_iff r.mac_address i hi).mp hrc
    · rintro ⟨r, hr, hb⟩
      rw [beq_iff_eq] at hb
      exact (pivotCol_isSome g _).mpr
        ⟨r, hr, (col_slot_iff r.mac_address i hi).mpr hb⟩

/-- Witness for C3 at the spec's two-record scenario (beacons 1 and 2
observed in the same group). -/
theorem pivot_flags_match_group_witness :
    (binarizeRow (buildPivotRow psAB (1, tsAB)) ∈ binPivotRows psAB) ∧
    ((binarizeRow (buildPivotRow psAB (1, tsAB))).flags.length = 25 ∧
     (∀ i ∈ List.range' 1 25,
       ((binarizeRow (buildPivotRow psAB (1, tsAB))).flags[i - 1]? = some 1 ↔
         ∃ r ∈ groupRecs psAB
             (binarizeRow (buildPivotRow psAB (1, tsAB))).user_id
             (binarizeRow (buildPivotRow psAB (1, tsAB))).timestamp,
           slot_for r.mac_address = some i)) ∧
     (binarizeRow (buildPivotRow psAB (1, tsAB))).flags.sum
       = observedSlotCount (groupRecs psAB
           (binarizeRow (buildPivotRow psAB (1, tsAB))).user_id
           (binarizeRow (buildPivotRow psAB (1, tsAB))).timestamp)) ∧
    (binarizeRow (buildPivotRow psAB (1, tsAB))).flags.sum = 2 := by
  have hk : (1, tsAB) ∈ pivotKeys psAB := List.mem_mergeSort.mpr (by decide)
  have hmem : binarizeRow (buildPivotRow psAB (1, tsAB)) ∈ binPivotRows psAB :=
    (mem_binPivotRows psAB _).mpr ⟨(1, tsAB), hk, rfl⟩
  exact ⟨hmem, pivot_flags_match_group psAB _ hmem, by decide⟩

/-- C4: in pivot mode every output row's signal strength is defined and
equals the arithmetic mean, over exactly the beacon slots observed in
the row's group, of the per-slot averages of the matching records'
signal strengths (absent slots ignored). -/
theorem pivot_signal_mean_of_slot_means (ps : List PRecord) :
    ∀ row ∈ binPivotRows ps,
      row.RSSI = specGroupSignal (groupRecs ps row.user_id row.timestamp) ∧
      row.RSSI.isSome := by
  intro row hrow
  obtain ⟨k, hk, rfl⟩ := (mem_binPivotRows ps row).mp hrow
  obtain ⟨ku, kt⟩ := k
  have huid : (binarizeRow (buildPivotRow ps (ku, kt))).user_id = ku := rfl
  have hts : (binarizeRow (buildPivotRow ps (ku, kt))).timestamp = kt := rfl
  rw [huid, hts]
  set g := groupRecs ps ku kt with hg
  have hRSSI : (binarizeRow (buildPivotRow ps (ku, kt))).RSSI
      = listMean ((rssi_cols.map (fun c => pivotCol g c)).filterMap id) := rfl
  have hcells : (rssi_cols.map (fun c => pivotCol g c)).filterMap id
      = (List.range' 1 25).filterMap (fun i =>
          listMean ((g.filter
            (fun r => slot_for r.mac_address == some i)).map (fun r => r.RSSI))) := by
    rw [List.filterMap_map, rssi_cols, List.filterMap_map]
    apply List.filterMap_congr
    intro i hi
    show pivotCol g ("RSSI_" ++ toString i) = _
    rw [pivotCol, slotVals_slot g i hi]
  constructor
  · rw [hRSSI, hcells]
    rfl
  · rw [hRSSI]
    rw [listMean_isSome]
    obtain ⟨r, hr, hu, ht, hm⟩ := (mem_pivotKeys ps (ku, kt)).mp hk
    obtain ⟨c, hc⟩ := Option.isSome_iff_exists.mp hm
    have hrg : r ∈ g := by
      rw [hg, groupRecs, List.mem_filter]
      refine ⟨hr, ?_⟩
      rw [Bool.and_eq_true, beq_iff_eq, beq_iff_eq]
      exact ⟨hu, ht⟩
    have hcmem : c ∈ rssi_cols := by
      rw [← dict_values_eq_cols]
      exact rssiColumnOf_mem_values hc
    have hsome : (pivotCol g c).isSome :=
      (pivotCol_isSome g c).mpr ⟨r, hrg, hc⟩
    obtain ⟨v, hv⟩ := Option.isSome_iff_exists.mp hsome
    apply List.ne_nil_of_mem (a := v)
    rw [List.mem_filterMap]
    refine ⟨some v, ?_, rfl⟩
    rw [← hv]
    exact List.mem_map_of_mem _ hcmem

/-- Witness for C4 at the spec's two-record scenario: the output row's
signal strength is (-60 + -55)/2 = -57.5. -/
theorem pivot_signal_mean_witness :
    (binarizeRow (buildPivotRow psAB (1, tsAB)) ∈ binPivotRows psAB) ∧
    ((binarizeRow (buildPivotRow psAB (1, tsAB))).RSSI
        = specGroupSignal (groupRecs psAB
            (binarizeRow (buildPivotRow psAB (1, tsAB))).user_id
            (binarizeRow (buildPivotRow psAB (1, tsAB))).timestamp) ∧
     (binarizeRow (buildPivotRow psAB (1, tsAB))).RSSI.isSome) ∧
    (binarizeRow (buildPivotRow psAB (1, tsAB))).RSSI = some (-115 / 2) := by
  have hk : (1, tsAB) ∈ pivotKeys psAB := List.mem_mergeSort.mpr (by decide)
  have hmem : binarizeRow (buildPivotRow psAB (1, tsAB)) ∈ binPivotRows psAB :=
    (mem_binPivotRows psAB _).mpr ⟨(1, tsAB), hk, rfl⟩
  have h0 : rssi_cols.map (fun c => slotVals (groupRecs psAB 1 tsAB) c)
      = [[(-60 : ℚ)], [(-55 : ℚ)], [], [], [], [], [], [], [], [], [], [], [],
         [], [], [], [], [], [], [], [], [], [], [], []] := by decide
  have hval : (binarizeRow (buildPivotRow psAB (1, tsAB))).RSSI
      = some (-115 / 2) := by
    show listMean ((rssi_cols.map
        (fun c => pivotCol (groupRecs psAB (1, tsAB).1 (1, tsAB).2) c)).filterMap id)
      = some (-115 / 2)
    have hmm : rssi_cols.map
        (fun c => pivotCol (groupRecs psAB (1, tsAB).1 (1, tsAB).2) c)
        = (rssi_cols.map (fun c => slotVals (groupRecs psAB 1 tsAB) c)).map
            listMean := by
      rw [List.map_map]
      rfl
    rw [hmm, h0]
    norm_num [listMean, List.filterMap_cons]
  exact ⟨hmem, pivot_signal_mean_of_slot_means psAB _ hmem, hval⟩

/-- C9: in pivot mode every output row's mac_address and power are those
of the first record of its (user_id, timestamp) group in input order. -/
theorem pivot_representative_is_first (ps : List PRecord) :
    ∀ row ∈ binPivotRows ps,
      ∃ r0, (groupRecs ps row.user_id row.timestamp).head? = some r0 ∧
        row.mac_address = r0.mac_address ∧ row.power = r0.power := by
  intro row hrow
  obtain ⟨k, hk, rfl⟩ := (mem_binPivotRows ps row).mp hrow
  obtain ⟨ku, kt⟩ := k
  have huid : (binarizeRow (buildPivotRow ps (ku, kt))).user_id = ku := rfl
  have hts : (binarizeRow (buildPivotRow ps (ku, kt))).timestamp = kt := rfl
  rw [huid, hts]
  obtain ⟨r, hr, hu, ht, hm⟩ := (mem_pivotKeys ps (ku, kt)).mp hk
  have hrg : r ∈ groupRecs ps ku kt := by
    rw [groupRecs, List.mem_filter]
    refine ⟨hr, ?_⟩
    rw [Bool.and_eq_true, beq_iff_eq, beq_iff_eq]
    exact ⟨hu, ht⟩
  have hne : groupRecs ps ku kt ≠ [] := List.ne_nil_of_mem hrg
  cases hgr : groupRecs ps ku kt with
  | nil => exact absurd hgr hne
  | cons r0 tl =>
    refine ⟨r0, rfl, ?_, ?_⟩
    · show ((groupRecs ps ku kt).head?.map (fun r2 => r2.mac_address)).getD ""
          = r0.mac_address
      rw [hgr]
      rfl
    · show ((groupRecs ps ku kt).head?.map (fun r2 => r2.power)).getD ""
          = r0.power
      rw [hgr]
      rfl

/-- Witness for C9 at the spec's two-record scenario: the
representative is the first record (beacon 1's MAC, its power). -/
theorem pivot_representative_is_first_witness :
    (binarizeRow (buildPivotRow psAB (1, tsAB)) ∈ binPivotRows psAB) ∧
    (∃ r0, (groupRecs psAB
          (binarizeRow (buildPivotRow psAB (1, tsAB))).user_id
          (binarizeRow (buildPivotRow psAB (1, tsAB))).timestamp).head? = some r0 ∧
       (binarizeRow (buildPivotRow psAB (1, tsAB))).mac_address = r0.mac_address ∧
       (binarizeRow (buildPivotRow psAB (1, tsAB))).power = r0.power) ∧
    (binarizeRow (buildPivotRow psAB (1, tsAB))).mac_address
      = "F7:7F:78:76:7E:F3" := by
  have hk : (1, tsAB) ∈ pivotKeys psAB := List.mem_mergeSort.mpr (by decide)
  have hmem : binarizeRow (buildPivotRow psAB (1, tsAB)) ∈ binPivotRows psAB :=
    (mem_binPivotRows psAB _).mpr ⟨(1, tsAB), hk, rfl⟩
  exact ⟨hmem, pivot_representative_is_first psAB _ hmem, by decide⟩

end BLE
